/-
Verification development for coecms/mdssprep.

Shallow embedding of src/mdssprep/mdssprep.py: the directory-scanning,
bin-packing, archive-construction and verify-before-delete pipeline of the
`Directory` class, together with the module-level helpers `md5stream`,
`addmeta` and `verify`.

Modelling conventions:
  * A file's bytes are a `List Nat`; its size (`stat().st_size`) is the
    length of that list (contents are snapshotted once, as the spec demands).
  * The md5 digest is modelled by a computable stand-in digest function of
    the byte stream; every property proved here depends only on the digest
    being a deterministic function of the bytes, never on md5 internals.
  * Likewise `blake2b(..., digest_size=6).hexdigest()` is modelled by a
    computable stand-in producing 12 hex characters deterministically.
  * Python exceptions (TypeError from `str + list`, ZeroDivisionError) are
    modelled with `Except String`.
-/
import Mathlib

/-- Constant `one_meg` from mdssprep.py (1048576). -/
def one_meg : Nat := 1048576

/-- Constant `one_gig` from mdssprep.py (1073741824). -/
def one_gig : Nat := 1073741824

/-- Stand-in for the md5 hexdigest of a byte stream (`md5stream` /
`md5path` in mdssprep.py): a computable deterministic function of the
bytes.  The claims treated here depend only on determinism, so the
internals of md5 itself are irrelevant and not modelled. -/
def md5 (bs : List Nat) : Nat :=
  bs.foldl (fun h b => (h * 256 + b % 256 + 1) % (2 ^ 128)) 0

/-- A regular file as seen by the scan: its name (final path component)
and its byte content.  `stat().st_size` is `content.length`. -/
structure FileRec where
  name : String
  content : List Nat
deriving DecidableEq, Repr

/-- Size (`st_size`) of a file: the length of its byte content. -/
def FileRec.size (f : FileRec) : Nat := f.content.length

/-- A child of a directory as produced by `Path.iterdir()`: either a
subdirectory (recorded by its path) or a regular file. -/
inductive Entry where
  | dir (path : String)
  | file (f : FileRec)
deriving DecidableEq, Repr

/-- A member of a tar archive in PAX format, as mdssprep builds them:
the (flattened) member name, the archived bytes, and the `md5` key of
`pax_headers`. -/
structure TarMember where
  name : String
  bytes : List Nat
  paxMd5 : Nat
deriving DecidableEq, Repr

/-- Model of `Path(info.name).name`: the final component of a path string. -/
def pathName (s : String) : String :=
  match (s.splitOn "/").getLast? with
  | some t => t
  | none => s

/-- Function `addmeta` (mdssprep.py lines 118-126): set `pax_headers['md5']` to the
md5 hexdigest of the file on disk, and flatten the member name to the
final path component. -/
def addmeta (f : FileRec) : TarMember :=
  { name := pathName f.name, bytes := f.content, paxMd5 := md5 f.content }

/-- Function `verify` (mdssprep.py lines 128-142): walk the members in order,
recompute each member's md5 from the archived bytes and compare with the
embedded `pax_headers['md5']`; short-circuit to `false` on the first
mismatch, `true` if every member matches. -/
def verify : List TarMember → Bool
  | [] => true
  | m :: rest => if md5 m.bytes = m.paxMd5 then verify rest else false

/-- Worker for shell-glob matching.  The fuel argument only bounds the
recursion so that the definition is structural (hence reducible by the
kernel); every recursive call shrinks `ps.length + s.length` by at least
one while spending exactly one unit of fuel, so starting the fuel at
`ps.length + s.length` (as `globMatch` does) the fuel never runs out. -/
def globMatchAux : Nat → List Char → List Char → Bool
  | _, [], [] => true
  | _, [], _ :: _ => false
  | 0, _ :: _, _ => false
  | fuel + 1, '*' :: ps, [] => globMatchAux fuel ps []
  | fuel + 1, '*' :: ps, c :: cs =>
      globMatchAux fuel ps (c :: cs) || globMatchAux fuel ('*' :: ps) cs
  | _ + 1, '?' :: _, [] => false
  | fuel + 1, '?' :: ps, _ :: cs => globMatchAux fuel ps cs
  | _ + 1, _ :: _, [] => false
  | fuel + 1, p :: ps, c :: cs => p == c && globMatchAux fuel ps cs

/-- Shell-glob matching (`*`, `?`, literal) of a pattern against a name,
modelling `pathlib.PurePath.match` for patterns without a path
separator, which match against the final path component.  (Bracket
classes are not used by this repository's tests or callers.) -/
def globMatch (ps s : List Char) : Bool :=
  globMatchAux (ps.length + s.length) ps s

/-- Model of `child.match(pattern)` on a direct child of the scanned directory,
for a pattern with no path separator: glob-match against the child's
name. -/
def pathMatch (pattern : String) (name : String) : Bool :=
  globMatch pattern.data name.data

/-- Model of `itertools.compress(files, storemask)`: the elements of `files`
selected by the parallel boolean mask. -/
def pyCompress (files : List FileRec) (mask : List Bool) : List FileRec :=
  (List.zip files mask).filterMap (fun p => if p.2 then some p.1 else none)

/-- The sizes of the mask-selected (stored) files, in order. -/
def storedSizes (files : List FileRec) (mask : List Bool) : List Nat :=
  (pyCompress files mask).map FileRec.size

/-- The policy-relevant configuration attributes a `Directory` object
carries after `__init__` (mdssprep.py lines 154-174).  The Python
attribute `self.include` is spelled `«include»` because `include` is a
Lean keyword.  The `uncompressible` policy entry is bound by `__init__`
but never read anywhere, so it is not modelled. -/
structure DirConfig where
  compress : Option String
  minfilesize : Nat
  maxarchivesize : Nat
  «include» : List String
  exclude : List String
deriving DecidableEq, Repr

/-- The keyword arguments accepted by `Directory.__init__`; `none` means
the keyword was not passed, so `kwargs = {**policy, **kwargs}` falls back
to the module-level `policy` dict (or to `[]` for include/exclude, which
are set before the kwargs loop and are absent from `policy`). -/
structure Kwargs where
  compress : Option (Option String) := none
  minfilesize : Option Nat := none
  maxarchivesize : Option Nat := none
  «include» : Option (List String) := none
  exclude : Option (List String) := none
deriving DecidableEq, Repr

/-- The module-level `policy` default for `compress` (mdssprep.py line 61). -/
def policyCompress : Option String := some "gz"

/-- The module-level `policy` default for `minfilesize`: `50.*one_meg`. -/
def policyMinfilesize : Nat := 50 * one_meg

/-- The module-level `policy` default for `maxarchivesize`: `10.*one_gig`. -/
def policyMaxarchivesize : Nat := 10 * one_gig

/-- A `Directory` object right after `__init__`: its path, its policy
configuration, and the tar open mode derived from the compression. -/
structure DirState where
  path : String
  config : DirConfig
  mode : String
deriving DecidableEq, Repr

/-- Constructor `Directory.__init__(path, **kwargs)` (mdssprep.py lines 154-174):
merge the passed kwargs over the module-level `policy` defaults, default
`include`/`exclude` to `[]`, and set `mode` to `'w'` or `'w:'+compress`. -/
def directoryInit (path : String) (kw : Kwargs) : DirState :=
  let compress := kw.compress.getD policyCompress
  { path := path
    config :=
      { compress := compress
        minfilesize := kw.minfilesize.getD policyMinfilesize
        maxarchivesize := kw.maxarchivesize.getD policyMaxarchivesize
        «include» := kw.«include».getD []
        exclude := kw.exclude.getD [] }
    mode := match compress with
            | some c => "w:" ++ c
            | none => "w" }

/-- The `Kwargs` of a call `Directory(path)` with no keyword arguments,
as `Directory.archive` performs for each subdirectory (line 182). -/
def emptyKwargs : Kwargs := {}

/-- The include-filter loop of `gatherfiles` (lines 214-218): `include`
becomes true iff some include pattern matches the child (the source's
first-match `break` is observationally `List.any`). -/
def includeMatch (cfg : DirConfig) (f : FileRec) : Bool :=
  cfg.«include».any (fun pattern => pathMatch pattern f.name)

/-- The exclude-filter loop of `gatherfiles` (lines 219-223). -/
def excludeMatch (cfg : DirConfig) (f : FileRec) : Bool :=
  cfg.exclude.any (fun pattern => pathMatch pattern f.name)

/-- The store condition of `gatherfiles` (line 224):
`(size < self.minfilesize and not exclude) or include`. -/
def storeDecision (cfg : DirConfig) (f : FileRec) : Bool :=
  (decide (f.size < cfg.minfilesize) && !excludeMatch cfg f) || includeMatch cfg f

/-- The mutable state threaded through the `gatherfiles` loop
(mdssprep.py lines 198-238): instance counters (`subdirs`, `totalfiles`,
`untarsize`, `tottarsize`, `tarsize`), the local accumulators
(`tarfiles`, `store`, `totsize`), and `tarcalls`, the list of
`(files, storemask)` arguments of the `self.tar` calls already issued by
the loop's flushes, in order.  (In the source those calls run inline;
recording them and replaying them in order preserves every observable
the claims mention, since the loop itself reads none of the state that
`tar` mutates.) -/
structure GatherState where
  subdirs : List String
  totalfiles : Nat
  untarsize : Nat
  tottarsize : Nat
  tarsize : Nat
  tarfiles : List FileRec
  store : List Bool
  totsize : Nat
  tarcalls : List (List FileRec × List Bool)
deriving DecidableEq, Repr

/-- The state at entry to the `gatherfiles` loop. -/
def initGather : GatherState :=
  { subdirs := [], totalfiles := 0, untarsize := 0, tottarsize := 0,
    tarsize := 0, tarfiles := [], store := [], totsize := 0, tarcalls := [] }

/-- One iteration of the `gatherfiles` loop (lines 204-236) on one child
of the directory. -/
def gatherStep (cfg : DirConfig) (st : GatherState) : Entry → GatherState
  | .dir path => { st with subdirs := st.subdirs ++ [path] }
  | .file f =>
    let size := f.size
    let st := { st with totalfiles := st.totalfiles + 1,
                        tarfiles := st.tarfiles ++ [f] }
    if storeDecision cfg f then
      let st := { st with totsize := st.totsize + size,
                          tottarsize := st.tottarsize + size,
                          tarsize := st.tarsize + size,
                          store := st.store ++ [true] }
      if cfg.maxarchivesize < st.totsize then
        { st with tarcalls := st.tarcalls ++ [(st.tarfiles, st.store)],
                  tarfiles := [], totsize := 0, store := [] }
      else st
    else
      { st with untarsize := st.untarsize + size, store := st.store ++ [false] }

/-- Method `Directory.gatherfiles` up to (but excluding) the trailing
`self.tar(tarfiles, store, dryrun)` call of line 238: fold the loop body
over the children in enumeration order. -/
def gatherfiles (cfg : DirConfig) (entries : List Entry) : GatherState :=
  entries.foldl (gatherStep cfg) initGather

/-- All `self.tar` calls issued by a full `gatherfiles` run: the flushes
from inside the loop followed by the final call of line 238 (which may
receive empty lists; `tar` then returns immediately). -/
def allCalls (st : GatherState) : List (List FileRec × List Bool) :=
  st.tarcalls ++ [(st.tarfiles, st.store)]

/-- The files among a list of scanned children. -/
def filesOf (entries : List Entry) : List FileRec :=
  entries.filterMap (fun e => match e with | .dir _ => none | .file f => some f)

/-- The complete store/leave-alone mask accumulated so far, in scan
order: the masks of the already-flushed batches followed by the mask of
the currently open batch. -/
def allMask (st : GatherState) : List Bool :=
  (st.tarcalls.map Prod.snd).flatten ++ st.store

/-- The recursion of `Directory.archive` (mdssprep.py lines 180-183):
for each discovered subdirectory, a fresh `Directory(path)` is
constructed with NO keyword arguments and its `archive` is invoked with
the parent's `dryrun` flag.  The list records, in order, the child
object and the flag passed to its `archive` call. -/
def archiveChildren (st : GatherState) (dryrun : Bool) : List (DirState × Bool) :=
  st.subdirs.map (fun p => (directoryInit p emptyKwargs, dryrun))

/-- Python's `'{:03d}'.format(n)`: decimal digits zero-padded on the
left to width 3 (wider numbers are printed in full). -/
def pad3 (n : Nat) : String :=
  let s := toString n
  String.mk (List.replicate (3 - s.length) '0') ++ s

/-- One hex digit (lower case). -/
def hexChar (n : Nat) : Char :=
  if n < 10 then Char.ofNat (48 + n) else Char.ofNat (87 + n % 16)

/-- Stand-in for `Directory.hashpath` (mdssprep.py lines 240-244):
`blake2b(str(self.path), digest_size=6).hexdigest()`, a deterministic
6-byte digest of the directory path string rendered as 12 lower-case
hex characters.  A computable stand-in digest replaces blake2b; the
claims depend only on determinism and on the 12-hex-character shape. -/
def hashpath (path : String) : String :=
  let h := path.data.foldl (fun a c => (a * 131 + c.toNat + 1) % (2 ^ 48)) 0
  String.mk ((List.range 12).map (fun i => hexChar (h / 16 ^ (11 - i) % 16)))

/-- The archive file name computed by `Directory.tar` (lines 251-255):
`'archive_{}_{:03d}.tar'.format(hashval, self.narchive)`, then, when
compression is set, `":".join([filename, self.compress])`. -/
def archiveFileName (compress : Option String) (hashval : String) (narchive : Nat) : String :=
  let filename := "archive_" ++ hashval ++ "_" ++ pad3 narchive ++ ".tar"
  match compress with
  | some c => filename ++ ":" ++ c
  | none => filename

/-- A Python value that is either a `str` or a `list` (of file paths),
just enough to model the operand types of the `+` in line 273. -/
inductive PyVal where
  | str (s : String)
  | list (xs : List String)
deriving DecidableEq, Repr

/-- Python's binary `+` on `str`/`list` operands: concatenation when the
types agree, `TypeError` when they differ. -/
def pyAdd : PyVal → PyVal → Except String PyVal
  | .str a, .str b => .ok (.str (a ++ b))
  | .str _, .list _ => .error "TypeError: can only concatenate str (not \"list\") to str"
  | .list a, .list b => .ok (.list (a ++ b))
  | .list _, .str _ => .error "TypeError: can only concatenate list (not \"str\") to list"

/-- The argument expression of the `print` on mdssprep.py line 273:
`"WARNING! Files not compressed correctly: " + files`, where `files` is
the Python list of batch members. -/
def warningLine (files : List FileRec) : Except String PyVal :=
  pyAdd (.str "WARNING! Files not compressed correctly: ")
        (.list (files.map FileRec.name))

/-- The members written into the archive by the `with` block of
`Directory.tar` (lines 259-266): `archive.add(name=path, filter=addmeta)`
for each `path in compress(files, storemask)`. -/
def buildMembers (files : List FileRec) (storemask : List Bool) : List TarMember :=
  (pyCompress files storemask).map addmeta

/-- The `finally` block of `Directory.tar` (lines 267-273) on a real
run.  `readBack` is the archive's member list as `verify` re-reads it
from disk; when the filesystem is faithful it equals the members just
written (`buildMembers files storemask`), but `verify` judges whatever
is actually on disk.  On a true verdict the originals selected by the
mask are unlinked (`.ok` of their names); on a false verdict nothing is
unlinked and line 273 evaluates `"WARNING! ..." + files`, which raises
`TypeError` because `files` is a list. -/
def tarFinally (files : List FileRec) (storemask : List Bool)
    (readBack : List TarMember) : Except String (List String) :=
  if verify readBack then
    .ok ((pyCompress files storemask).map FileRec.name)
  else
    match warningLine files with
    | .ok _ => .ok []
    | .error e => .error e

/-- The file names actually unlinked by a `tarFinally` outcome: the
returned names on success, nothing when the branch raised. -/
def unlinksOf : Except String (List String) → List String
  | .ok l => l
  | .error _ => []

/-- The observable cumulative effect of the `self.tar` calls of one
directory level: the `narchive` counter, the archive files created on
disk (name and member list, in creation order), the source files
unlinked, and the `self.tarfiles` attribute extended on line 279. -/
structure RunAcc where
  narchive : Nat
  created : List (String × List TarMember)
  unlinked : List String
  tarfilesAttr : List FileRec
deriving DecidableEq, Repr

/-- The run state before any `tar` call. -/
def initAcc : RunAcc := { narchive := 0, created := [], unlinked := [], tarfilesAttr := [] }

/-- Method `Directory.tar(files, storemask, dryrun)` (mdssprep.py lines
246-279) with a faithful filesystem (what `verify` reads back is what
the `with` block wrote).  Empty `files` returns at once (line 249).
Otherwise `narchive` is incremented and the file name computed; on a dry
run no archive is created and nothing is unlinked, while on a real run
the archive is written and the `finally` block decides the unlinks.  A
raised exception (`.error`) aborts the run, skipping line 279. -/
def tarOp (compress : Option String) (hashval : String) (dryrun : Bool)
    (st : RunAcc) (call : List FileRec × List Bool) : Except String RunAcc :=
  if call.1.length = 0 then .ok st
  else
    let narchive := st.narchive + 1
    let filename := archiveFileName compress hashval narchive
    if dryrun then
      .ok { st with narchive := narchive,
                    tarfilesAttr := st.tarfilesAttr ++ pyCompress call.1 call.2 }
    else
      let members := buildMembers call.1 call.2
      match tarFinally call.1 call.2 members with
      | .ok names =>
        .ok { st with narchive := narchive,
                      created := st.created ++ [(filename, members)],
                      unlinked := st.unlinked ++ names,
                      tarfilesAttr := st.tarfilesAttr ++ pyCompress call.1 call.2 }
      | .error e => .error e

/-- Perform a sequence of `self.tar` calls in order, threading the run
state; a raised exception aborts the remainder, as in Python. -/
def runTar (compress : Option String) (hashval : String) (dryrun : Bool) :
    RunAcc → List (List FileRec × List Bool) → Except String RunAcc
  | acc, [] => .ok acc
  | acc, call :: rest =>
    match tarOp compress hashval dryrun acc call with
    | .ok acc2 => runTar compress hashval dryrun acc2 rest
    | .error e => .error e

/-- Replay, in order, all `self.tar` calls issued by one `gatherfiles`
run, starting from a fresh run state. -/
def runLevel (compress : Option String) (hashval : String) (dryrun : Bool)
    (calls : List (List FileRec × List Bool)) : Except String RunAcc :=
  runTar compress hashval dryrun initAcc calls

/-- One level of `Directory.archive(dryrun)` before recursion
(mdssprep.py lines 176-178): run `gatherfiles` over the directory's
children, then perform every `tar` call it issued (with a faithful
filesystem). -/
def archiveLevel (cfg : DirConfig) (path : String) (entries : List Entry)
    (dryrun : Bool) : GatherState × Except String RunAcc :=
  let g := gatherfiles cfg entries
  (g, runLevel cfg.compress (hashpath path) dryrun (allCalls g))

/-- Python's true division by an integer denominator, keeping only
whether it raises: `ZeroDivisionError` when the denominator is zero.
(The quotient's numeric value feeds only `pretty_size` string
formatting, which no claim mentions; the natural-number quotient stands
in for it.) -/
def pyDiv (a : Nat) (b : Int) : Except String Nat :=
  if b = 0 then .error "ZeroDivisionError: division by zero"
  else .ok (a / b.toNat)

/-- Method `Directory.report` (mdssprep.py lines 185-196), reduced to its two
divisions, evaluated in argument order: `(untarsize+tottarsize) /
totalfiles` and `(untarsize+tarsize) / (totalfiles - len(tarfiles) +
narchive)`; the first to divide by zero raises. -/
def report (totalfiles ntarfiles narchive untarsize tottarsize tarsize : Nat) :
    Except String (Nat × Nat) := do
  let a ← pyDiv (untarsize + tottarsize) (Int.ofNat totalfiles)
  let b ← pyDiv (untarsize + tarsize)
            (Int.ofNat totalfiles - Int.ofNat ntarfiles + Int.ofNat narchive)
  return (a, b)

/-- The subdirectories among a list of scanned children. -/
def dirsOf (entries : List Entry) : List String :=
  entries.filterMap (fun e => match e with | .dir p => some p | .file _ => none)

/-- The files appended to the `self.tarfiles` attribute by a sequence of
`tar` calls (line 279): the mask-selected files of every call that was
not an empty-argument early return. -/
def storedOfCalls : List (List FileRec × List Bool) → List FileRec
  | [] => []
  | c :: rest =>
    (if c.1.length = 0 then [] else pyCompress c.1 c.2) ++ storedOfCalls rest

/-- The loop invariant of `gatherfiles`: the open batch's parallel lists
stay the same length, `totsize` is the total stored size of the open
batch and never exceeds the cap at an iteration boundary, and every
batch already flushed satisfies the packing bound on all but its final
stored member. -/
structure GatherInv (cfg : DirConfig) (st : GatherState) : Prop where
  len_eq : st.tarfiles.length = st.store.length
  tot_eq : st.totsize = (storedSizes st.tarfiles st.store).sum
  tot_le : st.totsize ≤ cfg.maxarchivesize
  calls_ok : ∀ b ∈ st.tarcalls,
    ((storedSizes b.1 b.2).dropLast).sum ≤ cfg.maxarchivesize

/-- An archive whose every member was written through `addmeta` passes
`verify`: each member's recomputed digest is, by construction, the
embedded one. -/
lemma verify_map_addmeta (L : List FileRec) : verify (L.map addmeta) = true := by
  induction L with
  | nil => rfl
  | cons f t ih => simp [verify, addmeta, ih]

/-- Selecting with an all-false mask yields nothing. -/
lemma pyCompress_map_false (fs : List FileRec) :
    pyCompress fs (fs.map (fun _ => false)) = [] := by
  induction fs with
  | nil => rfl
  | cons f t ih => simpa [pyCompress] using ih

/-- C1.  Verify gates delete: a file name is unlinked by the
`finally` block of `Directory.tar` exactly when `verify` on the archive
read back from disk returned true AND the name belongs to a mask-selected
(stored) member of the batch.  In particular nothing is unlinked on a
false verdict, every stored member is unlinked on a true verdict, and a
left-alone (mask-false) file is never unlinked. -/
theorem verify_gates_delete (files : List FileRec) (mask : List Bool)
    (readBack : List TarMember) (name : String) :
    name ∈ unlinksOf (tarFinally files mask readBack) ↔
      (verify readBack = true ∧
        ∃ p ∈ List.zip files mask, p.2 = true ∧ p.1.name = name) := by
  unfold tarFinally
  by_cases hv : verify readBack
  · simp only [hv, if_true, unlinksOf, true_and, pyCompress,
      List.mem_map, List.mem_filterMap]
    constructor
    · rintro ⟨a, ⟨p, hp, hsome⟩, hname⟩
      rcases hb : p.2 with _ | _
      · rw [hb] at hsome; simp at hsome
      · rw [hb] at hsome; simp at hsome
        exact ⟨p, hp, hb, by rw [hsome]; exact hname⟩
    · rintro ⟨p, hp, hb, hname⟩
      exact ⟨p.1, ⟨p, hp, by rw [hb]; simp⟩, hname⟩
  · simp [hv, warningLine, pyAdd, unlinksOf]

/-- Closed instance of `verify_gates_delete` at a concrete batch. -/
theorem verify_gates_delete_witness :
    "a" ∈ unlinksOf (tarFinally [⟨"a", [5]⟩] [true] (buildMembers [⟨"a", [5]⟩] [true])) ↔
      (verify (buildMembers [⟨"a", [5]⟩] [true]) = true ∧
        ∃ p ∈ List.zip [(⟨"a", [5]⟩ : FileRec)] [true], p.2 = true ∧ p.1.name = "a") :=
  verify_gates_delete [⟨"a", [5]⟩] [true] (buildMembers [⟨"a", [5]⟩] [true]) "a"

/-- C3.  The store decision: processing a file appends exactly
`(size < minfilesize AND NOT exclude) OR include` to the cumulative
store/leave-alone mask (whether or not the step also seals the batch),
and a matching include pattern forces storage regardless of size and of
any matching exclude pattern. -/
theorem store_decision_spec (cfg : DirConfig) (st : GatherState) (f : FileRec) :
    allMask (gatherStep cfg st (.file f)) = allMask st ++ [storeDecision cfg f] ∧
    (includeMatch cfg f = true → storeDecision cfg f = true) := by
  refine ⟨?_, fun h => by simp [storeDecision, h]⟩
  by_cases h : storeDecision cfg f
  · simp only [gatherStep, h, if_true]
    by_cases h2 : cfg.maxarchivesize < st.totsize + f.size
    · simp [h2, allMask, List.append_assoc]
    · simp [h2, allMask, List.append_assoc]
  · simp [gatherStep, h, allMask, List.append_assoc]

/-- Closed instance of `store_decision_spec`: an oversized file matching
both an include and an exclude pattern is stored. -/
theorem store_decision_spec_witness :
    allMask (gatherStep ⟨none, 0, 100, ["*"], ["*"]⟩ initGather (.file ⟨"big", [1, 2, 3]⟩))
        = allMask initGather ++ [storeDecision ⟨none, 0, 100, ["*"], ["*"]⟩ ⟨"big", [1, 2, 3]⟩] ∧
    (includeMatch ⟨none, 0, 100, ["*"], ["*"]⟩ ⟨"big", [1, 2, 3]⟩ = true →
      storeDecision ⟨none, 0, 100, ["*"], ["*"]⟩ ⟨"big", [1, 2, 3]⟩ = true) :=
  store_decision_spec ⟨none, 0, 100, ["*"], ["*"]⟩ initGather ⟨"big", [1, 2, 3]⟩

/-- C4.  Round-trip and short-circuit of `verify`: an archive freshly
built from a batch (every member written through `addmeta`) verifies
true; and whenever the first mismatching member appears, `verify`
returns false irrespective of everything after it (it never reads the
later members, and, being a plain function of the member list, it
never mutates the archive). -/
theorem verify_roundtrip_and_shortcircuit :
    (∀ files mask, verify (buildMembers files mask) = true) ∧
    (∀ pre m post, (∀ x ∈ pre, md5 x.bytes = x.paxMd5) →
      md5 m.bytes ≠ m.paxMd5 → verify (pre ++ m :: post) = false) := by
  constructor
  · intro files mask
    exact verify_map_addmeta (pyCompress files mask)
  · intro pre m post hpre hm
    induction pre with
    | nil => simp [verify, hm]
    | cons x t ih =>
      have hx : md5 x.bytes = x.paxMd5 := hpre x (by simp)
      simpa [verify, hx] using ih (fun y hy => hpre y (by simp [hy]))

/-- Closed instance of `verify_roundtrip_and_shortcircuit`: a freshly
built one-member archive verifies; a mismatching first member makes
`verify` false even though a matching member follows it. -/
theorem verify_roundtrip_and_shortcircuit_witness :
    verify (buildMembers [⟨"a", [5]⟩] [true]) = true ∧
    verify ([] ++ (⟨"b", [0], 0⟩ : TarMember) :: [⟨"c", [1], md5 [1]⟩]) = false :=
  ⟨verify_roundtrip_and_shortcircuit.1 [⟨"a", [5]⟩] [true],
   verify_roundtrip_and_shortcircuit.2 [] ⟨"b", [0], 0⟩ [⟨"c", [1], md5 [1]⟩]
     (by decide) (by decide)⟩

/-- C5 (code bug).  When `verify` fails on a batch's archive, nothing is
unlinked — but the warning of line 273 concatenates a `str` with the
Python list `files`, so instead of emitting a warning and continuing
with the next batch the code raises `TypeError`, aborting the
directory's run. -/
theorem verify_failure_warning_raises :
    tarFinally [⟨"f1", [0]⟩] [true] [⟨"f1", [0], 0⟩]
        = .error "TypeError: can only concatenate str (not \"list\") to str" ∧
    unlinksOf (tarFinally [⟨"f1", [0]⟩] [true] [⟨"f1", [0], 0⟩]) = [] := by
  constructor <;> rfl

/-- C6 (code bug).  The archive name for the first batch of a
gzip-compressed directory: `":".join([filename, self.compress])` yields
`archive_<digest>_001.tar:gz` — a colon, not the `.tar.gz` the spec
(and this repository's own tests, which glob for `archive_*.tar.gz`)
require.  Without compression the name matches the spec. -/
theorem archive_name_colon_gz :
    archiveFileName (some "gz") "8c70741daa87" 1 = "archive_8c70741daa87_001.tar:gz" ∧
    archiveFileName none "8c70741daa87" 1 = "archive_8c70741daa87_001.tar" := by
  constructor <;> rfl

/-- C10.  Each child `Directory` spawned by `archive`'s recursion is
built as `Directory(path)` with no keyword arguments: its policy is the
process-wide defaults (compress, minfilesize, maxarchivesize, empty
include and exclude lists), whatever kwargs the parent received; only
the `dryrun` flag is passed on to the child's `archive` call. -/
theorem child_uses_default_policy (path : String) (kw : Kwargs) (entries : List Entry)
    (dryrun : Bool) (c : DirState × Bool)
    (hc : c ∈ archiveChildren (gatherfiles (directoryInit path kw).config entries) dryrun) :
    c.1.config.compress = policyCompress ∧
    c.1.config.minfilesize = policyMinfilesize ∧
    c.1.config.maxarchivesize = policyMaxarchivesize ∧
    c.1.config.«include» = [] ∧
    c.1.config.exclude = [] ∧
    c.2 = dryrun := by
  rcases List.mem_map.mp hc with ⟨p, _, rfl⟩
  simp [directoryInit, emptyKwargs]

/-- Closed instance of `child_uses_default_policy`: a parent constructed
with overriding kwargs still spawns a default-policy child. -/
theorem child_uses_default_policy_witness :
    ((directoryInit "parent/sub" emptyKwargs, false) : DirState × Bool).1.config.compress
        = policyCompress ∧
    (directoryInit "parent/sub" emptyKwargs, false).1.config.minfilesize = policyMinfilesize ∧
    (directoryInit "parent/sub" emptyKwargs, false).1.config.maxarchivesize
        = policyMaxarchivesize ∧
    (directoryInit "parent/sub" emptyKwargs, false).1.config.«include» = [] ∧
    (directoryInit "parent/sub" emptyKwargs, false).1.config.exclude = [] ∧
    (directoryInit "parent/sub" emptyKwargs, false).2 = false :=
  child_uses_default_policy "parent"
    { minfilesize := some 1, «include» := some ["*"], exclude := some ["x"] }
    [.dir "parent/sub"] false (directoryInit "parent/sub" emptyKwargs, false) (by decide)

/-- Dropping the last element cannot increase a sum of naturals. -/
lemma sum_dropLast_le (l : List Nat) : l.dropLast.sum ≤ l.sum := by
  induction l with
  | nil => simp
  | cons a t ih =>
    cases t with
    | nil => simp
    | cons b u =>
      have : (a :: b :: u).dropLast = a :: (b :: u).dropLast := rfl
      rw [this, List.sum_cons, List.sum_cons]
      exact Nat.add_le_add_left ih a

/-- Appending a stored file to the open batch appends its size to the
stored-size list. -/
lemma storedSizes_append_true (fs : List FileRec) (ms : List Bool) (f : FileRec)
    (h : fs.length = ms.length) :
    storedSizes (fs ++ [f]) (ms ++ [true]) = storedSizes fs ms ++ [f.size] := by
  simp [storedSizes, pyCompress, List.zip_append h]

/-- Appending a left-alone file to the open batch leaves the stored-size
list unchanged. -/
lemma storedSizes_append_false (fs : List FileRec) (ms : List Bool) (f : FileRec)
    (h : fs.length = ms.length) :
    storedSizes (fs ++ [f]) (ms ++ [false]) = storedSizes fs ms := by
  simp [storedSizes, pyCompress, List.zip_append h]

/-- Branch equation of `gatherStep` for a subdirectory child. -/
lemma gatherStep_dir (cfg : DirConfig) (st : GatherState) (p : String) :
    gatherStep cfg st (.dir p) = { st with subdirs := st.subdirs ++ [p] } := rfl

/-- Branch equation of `gatherStep` for a left-alone file. -/
lemma gatherStep_file_skip (cfg : DirConfig) (st : GatherState) (f : FileRec)
    (h : storeDecision cfg f = false) :
    gatherStep cfg st (.file f) =
      { st with totalfiles := st.totalfiles + 1,
                untarsize := st.untarsize + f.size,
                tarfiles := st.tarfiles ++ [f],
                store := st.store ++ [false] } := by
  simp [gatherStep, h]

/-- Branch equation of `gatherStep` for a stored file that seals the
batch (the running total, with the file counted, exceeds the cap). -/
lemma gatherStep_file_flush (cfg : DirConfig) (st : GatherState) (f : FileRec)
    (h : storeDecision cfg f = true)
    (h2 : cfg.maxarchivesize < st.totsize + f.size) :
    gatherStep cfg st (.file f) =
      { st with totalfiles := st.totalfiles + 1,
                tottarsize := st.tottarsize + f.size,
                tarsize := st.tarsize + f.size,
                tarfiles := [], store := [], totsize := 0,
                tarcalls := st.tarcalls ++ [(st.tarfiles ++ [f], st.store ++ [true])] } := by
  simp [gatherStep, h, h2]

/-- Branch equation of `gatherStep` for a stored file that keeps the
batch open. -/
lemma gatherStep_file_open (cfg : DirConfig) (st : GatherState) (f : FileRec)
    (h : storeDecision cfg f = true)
    (h2 : ¬cfg.maxarchivesize < st.totsize + f.size) :
    gatherStep cfg st (.file f) =
      { st with totalfiles := st.totalfiles + 1,
                tottarsize := st.tottarsize + f.size,
                tarsize := st.tarsize + f.size,
                tarfiles := st.tarfiles ++ [f],
                store := st.store ++ [true],
                totsize := st.totsize + f.size } := by
  simp [gatherStep, h, h2]

/-- One `gatherfiles` iteration preserves the loop invariant. -/
lemma gatherStep_inv (cfg : DirConfig) (st : GatherState) (e : Entry)
    (h : GatherInv cfg st) : GatherInv cfg (gatherStep cfg st e) := by
  cases e with
  | dir p =>
    exact ⟨h.len_eq, h.tot_eq, h.tot_le, h.calls_ok⟩
  | file f =>
    rcases hd : storeDecision cfg f with _ | _
    · rw [gatherStep_file_skip cfg st f hd]
      refine ⟨by simp [h.len_eq], ?_, h.tot_le, h.calls_ok⟩
      show st.totsize = (storedSizes (st.tarfiles ++ [f]) (st.store ++ [false])).sum
      rw [storedSizes_append_false st.tarfiles st.store f h.len_eq]
      exact h.tot_eq
    · by_cases hflush : cfg.maxarchivesize < st.totsize + f.size
      · rw [gatherStep_file_flush cfg st f hd hflush]
        refine ⟨rfl, rfl, Nat.zero_le _, ?_⟩
        intro b hb
        rcases List.mem_append.mp hb with h1 | h2
        · exact h.calls_ok b h1
        · have hb2 : b = (st.tarfiles ++ [f], st.store ++ [true]) := by
            simpa using h2
          subst hb2
          rw [storedSizes_append_true st.tarfiles st.store f h.len_eq,
              List.dropLast_concat, ← h.tot_eq]
          exact h.tot_le
      · rw [gatherStep_file_open cfg st f hd hflush]
        refine ⟨by simp [h.len_eq], ?_, Nat.le_of_not_lt hflush, h.calls_ok⟩
        show st.totsize + f.size = (storedSizes (st.tarfiles ++ [f]) (st.store ++ [true])).sum
        rw [storedSizes_append_true st.tarfiles st.store f h.len_eq]
        simp [h.tot_eq]

/-- The `gatherfiles` loop invariant holds after scanning any directory. -/
lemma gather_inv (cfg : DirConfig) (entries : List Entry) :
    GatherInv cfg (gatherfiles cfg entries) := by
  have main : ∀ l st, GatherInv cfg st →
      GatherInv cfg (List.foldl (gatherStep cfg) st l) := by
    intro l
    induction l with
    | nil => intro st h; exact h
    | cons e t ih => intro st h; exact ih _ (gatherStep_inv cfg st e h)
  refine main entries initGather ⟨rfl, rfl, Nat.zero_le _, by simp [initGather]⟩

/-- C2 counterexample.  Two stored files of size 6 with
`maxarchivesize = 10`: the second file is appended to the already-open
batch and only then is the batch sealed, so the emitted batch's stored
sizes sum to 12 > 10 although no single member exceeds the cap —
refuting the claim that a batch's total never exceeds the cap unless a
single file alone does. -/
theorem packing_bound_cex :
    ∃ b ∈ allCalls (gatherfiles ⟨none, 7, 10, [], []⟩
        [.file ⟨"a", List.replicate 6 0⟩, .file ⟨"b", List.replicate 6 0⟩]),
      10 < (storedSizes b.1 b.2).sum ∧ ∀ s ∈ storedSizes b.1 b.2, s ≤ 10 := by
  decide

/-- C2 amended.  The packing bound the code actually maintains: within
every emitted batch, the stored sizes EXCLUDING the final stored member
sum to at most `maxarchivesize` — the file whose appending makes the
running total exceed the cap joins the current batch (which is sealed
right after it) rather than starting a new one. -/
theorem packing_bound_last_member (cfg : DirConfig) (entries : List Entry)
    (b : List FileRec × List Bool) (hb : b ∈ allCalls (gatherfiles cfg entries)) :
    ((storedSizes b.1 b.2).dropLast).sum ≤ cfg.maxarchivesize := by
  have h := gather_inv cfg entries
  rcases List.mem_append.mp hb with h1 | h2
  · exact h.calls_ok b h1
  · have hb2 : b = ((gatherfiles cfg entries).tarfiles, (gatherfiles cfg entries).store) := by
      simpa using h2
    subst hb2
    exact le_trans (sum_dropLast_le _) (by rw [← h.tot_eq]; exact h.tot_le)

/-- Closed instance of `packing_bound_last_member` at the counterexample
batch: dropping the final stored member restores the bound. -/
theorem packing_bound_last_member_witness :
    ((storedSizes [⟨"a", List.replicate 6 0⟩, ⟨"b", List.replicate 6 0⟩]
        [true, true]).dropLast).sum ≤ 10 :=
  packing_bound_last_member ⟨none, 7, 10, [], []⟩
    [.file ⟨"a", List.replicate 6 0⟩, .file ⟨"b", List.replicate 6 0⟩]
    ([⟨"a", List.replicate 6 0⟩, ⟨"b", List.replicate 6 0⟩], [true, true]) (by decide)

/-- A file is among `filesOf` a child list exactly when the child list
holds it as a file entry. -/
lemma mem_filesOf (f : FileRec) (entries : List Entry) :
    f ∈ filesOf entries ↔ Entry.file f ∈ entries := by
  rw [filesOf, List.mem_filterMap]
  constructor
  · rintro ⟨e, he, hsome⟩
    cases e with
    | dir p => simp at hsome
    | file g => simp at hsome; subst hsome; exact he
  · intro he
    exact ⟨.file f, he, rfl⟩

/-- Scanning children none of which satisfies the store criterion only
collects subdirectories, counts and left-alone accounting: the open
batch ends as all the files with an all-false mask, no flush ever
happens, and `totsize` stays put. -/
lemma foldl_allFalse (cfg : DirConfig) (entries : List Entry) :
    ∀ st : GatherState,
      (∀ f, Entry.file f ∈ entries → storeDecision cfg f = false) →
      List.foldl (gatherStep cfg) st entries =
        { st with
          subdirs := st.subdirs ++ dirsOf entries,
          totalfiles := st.totalfiles + (filesOf entries).length,
          untarsize := st.untarsize + ((filesOf entries).map FileRec.size).sum,
          tarfiles := st.tarfiles ++ filesOf entries,
          store := st.store ++ (filesOf entries).map (fun _ => false) } := by
  induction entries with
  | nil => intro st h; simp [filesOf, dirsOf]
  | cons e t ih =>
    intro st h
    cases e with
    | dir p =>
      rw [List.foldl_cons, gatherStep_dir, ih _ (fun f hf => h f (by simp [hf]))]
      simp [dirsOf, filesOf, List.append_assoc]
    | file f =>
      have hf : storeDecision cfg f = false := h f (by simp)
      rw [List.foldl_cons, gatherStep_file_skip cfg st f hf,
          ih _ (fun g hg => h g (by simp [hg]))]
      simp [dirsOf, filesOf, List.append_assoc, Nat.add_assoc, Nat.add_comm,
        Nat.add_left_comm]

/-- Running `gatherfiles` over a directory in which nothing satisfies the store
criterion, from the initial state. -/
lemma gatherfiles_allFalse (cfg : DirConfig) (entries : List Entry)
    (hall : ∀ f, Entry.file f ∈ entries → storeDecision cfg f = false) :
    gatherfiles cfg entries =
      { subdirs := dirsOf entries,
        totalfiles := (filesOf entries).length,
        untarsize := ((filesOf entries).map FileRec.size).sum,
        tottarsize := 0, tarsize := 0,
        tarfiles := filesOf entries,
        store := (filesOf entries).map (fun _ => false),
        totsize := 0, tarcalls := [] } := by
  have h := foldl_allFalse cfg entries initGather hall
  simpa [gatherfiles, initGather] using h

/-- A dry run through any sequence of `tar` calls succeeds, creates no
archive, unlinks nothing, and extends the `tarfiles` attribute with
exactly the stored files of the non-empty calls. -/
lemma runTar_dry (comp : Option String) (hv : String) :
    ∀ (calls : List (List FileRec × List Bool)) (acc : RunAcc),
      ∃ n, runTar comp hv true acc calls =
        .ok { narchive := n, created := acc.created, unlinked := acc.unlinked,
              tarfilesAttr := acc.tarfilesAttr ++ storedOfCalls calls } := by
  intro calls
  induction calls with
  | nil =>
    intro acc
    exact ⟨acc.narchive, by simp [runTar, storedOfCalls]⟩
  | cons c t ih =>
    intro acc
    by_cases hc : c.1.length = 0
    · obtain ⟨n, hn⟩ := ih acc
      refine ⟨n, ?_⟩
      have hop : tarOp comp hv true acc c = .ok acc := by simp [tarOp, hc]
      rw [runTar, hop]
      simpa [storedOfCalls, hc] using hn
    · obtain ⟨n, hn⟩ := ih ⟨acc.narchive + 1, acc.created, acc.unlinked,
        acc.tarfilesAttr ++ pyCompress c.1 c.2⟩
      refine ⟨n, ?_⟩
      have hop : tarOp comp hv true acc c =
          .ok ⟨acc.narchive + 1, acc.created, acc.unlinked,
            acc.tarfilesAttr ++ pyCompress c.1 c.2⟩ := by
        simp [tarOp, hc]
      rw [runTar, hop]
      simpa [storedOfCalls, hc, List.append_assoc] using hn

/-- A real run through any sequence of `tar` calls with a faithful
filesystem succeeds (every freshly built archive verifies), and extends
the `tarfiles` attribute with exactly the stored files of the non-empty
calls. -/
lemma runTar_real_faithful (comp : Option String) (hv : String) :
    ∀ (calls : List (List FileRec × List Bool)) (acc : RunAcc),
      ∃ n cr ul, runTar comp hv false acc calls =
        .ok { narchive := n, created := cr, unlinked := ul,
              tarfilesAttr := acc.tarfilesAttr ++ storedOfCalls calls } := by
  intro calls
  induction calls with
  | nil =>
    intro acc
    exact ⟨acc.narchive, acc.created, acc.unlinked, by simp [runTar, storedOfCalls]⟩
  | cons c t ih =>
    intro acc
    by_cases hc : c.1.length = 0
    · obtain ⟨n, cr, ul, hn⟩ := ih acc
      refine ⟨n, cr, ul, ?_⟩
      have hop : tarOp comp hv false acc c = .ok acc := by simp [tarOp, hc]
      rw [runTar, hop]
      simpa [storedOfCalls, hc] using hn
    · have hver : verify (buildMembers c.1 c.2) = true := verify_map_addmeta _
      obtain ⟨n, cr, ul, hn⟩ := ih ⟨acc.narchive + 1,
        acc.created ++ [(archiveFileName comp hv (acc.narchive + 1), buildMembers c.1 c.2)],
        acc.unlinked ++ (pyCompress c.1 c.2).map FileRec.name,
        acc.tarfilesAttr ++ pyCompress c.1 c.2⟩
      refine ⟨n, cr, ul, ?_⟩
      have hop : tarOp comp hv false acc c =
          .ok ⟨acc.narchive + 1,
            acc.created ++
              [(archiveFileName comp hv (acc.narchive + 1), buildMembers c.1 c.2)],
            acc.unlinked ++ (pyCompress c.1 c.2).map FileRec.name,
            acc.tarfilesAttr ++ pyCompress c.1 c.2⟩ := by
        simp [tarOp, hc, tarFinally, hver]
      rw [runTar, hop]
      simpa [storedOfCalls, hc, List.append_assoc] using hn

/-- C7.  A dry run never unlinks a source file and never creates an
archive file, while the scan it performs — and hence the store versus
leave-alone classification, including the files recorded as stored —
coincides with that of a real run on the same input. -/
theorem dryrun_no_effects (cfg : DirConfig) (path : String) (entries : List Entry) :
    ∃ aD aR : RunAcc,
      (archiveLevel cfg path entries true).2 = .ok aD ∧
      (archiveLevel cfg path entries false).2 = .ok aR ∧
      aD.created = [] ∧ aD.unlinked = [] ∧
      aD.tarfilesAttr = aR.tarfilesAttr ∧
      (archiveLevel cfg path entries true).1 = (archiveLevel cfg path entries false).1 := by
  obtain ⟨n, hd⟩ := runTar_dry cfg.compress (hashpath path)
    (allCalls (gatherfiles cfg entries)) initAcc
  obtain ⟨n2, cr, ul, hr⟩ := runTar_real_faithful cfg.compress (hashpath path)
    (allCalls (gatherfiles cfg entries)) initAcc
  exact ⟨_, _, hd, hr, rfl, rfl, rfl, rfl⟩

/-- C8 (code bug).  For a directory whose scan saw zero files, the tar
phase is a no-op, and the end-of-run report divides
`untarsize + tottarsize` by `totalfiles = 0` — raising
`ZeroDivisionError` instead of skipping the report or showing zero. -/
theorem report_zero_files_raises (cfg : DirConfig) (path : String)
    (entries : List Entry) (dryrun : Bool) (hnf : filesOf entries = []) :
    (archiveLevel cfg path entries dryrun).2 = .ok initAcc ∧
    report (gatherfiles cfg entries).totalfiles initAcc.tarfilesAttr.length
        initAcc.narchive (gatherfiles cfg entries).untarsize
        (gatherfiles cfg entries).tottarsize (gatherfiles cfg entries).tarsize
      = .error "ZeroDivisionError: division by zero" := by
  have hall : ∀ f, Entry.file f ∈ entries → storeDecision cfg f = false := by
    intro f hf
    exact absurd ((mem_filesOf f entries).mpr hf) (by simp [hnf])
  have hg := gatherfiles_allFalse cfg entries hall
  constructor
  · show runTar cfg.compress (hashpath path) dryrun initAcc
      (allCalls (gatherfiles cfg entries)) = .ok initAcc
    rw [hg, hnf]
    simp [allCalls, runTar, tarOp]
  · rw [hg, hnf]
    simp only [report, pyDiv, initAcc]
    rfl

/-- Closed instance of `report_zero_files_raises` on a directory holding
only a subdirectory. -/
theorem report_zero_files_raises_witness :
    (archiveLevel ⟨none, 5, 10, [], []⟩ "p" [.dir "p/sub"] false).2 = .ok initAcc ∧
    report (gatherfiles ⟨none, 5, 10, [], []⟩ [.dir "p/sub"]).totalfiles
        initAcc.tarfilesAttr.length initAcc.narchive
        (gatherfiles ⟨none, 5, 10, [], []⟩ [.dir "p/sub"]).untarsize
        (gatherfiles ⟨none, 5, 10, [], []⟩ [.dir "p/sub"]).tottarsize
        (gatherfiles ⟨none, 5, 10, [], []⟩ [.dir "p/sub"]).tarsize
      = .error "ZeroDivisionError: division by zero" :=
  report_zero_files_raises ⟨none, 5, 10, [], []⟩ "p" [.dir "p/sub"] false (by decide)

/-- C9.  On a real run over a directory holding at least one file none
of which satisfies the store criterion, `tar` still increments the
archive counter and creates exactly one archive with zero members
(unlinking nothing); a directory with zero file children is the only
case that produces no archive file at all. -/
theorem empty_storemask_archive (cfg : DirConfig) (path : String)
    (entries : List Entry)
    (hall : ∀ f, Entry.file f ∈ entries → storeDecision cfg f = false) :
    (filesOf entries ≠ [] →
      (archiveLevel cfg path entries false).2 =
        .ok ⟨1, [(archiveFileName cfg.compress (hashpath path) 1, [])], [], []⟩) ∧
    (filesOf entries = [] →
      (archiveLevel cfg path entries false).2 = .ok initAcc) := by
  have hg := gatherfiles_allFalse cfg entries hall
  constructor
  · intro hne
    show runTar cfg.compress (hashpath path) false initAcc
      (allCalls (gatherfiles cfg entries)) =
        .ok ⟨1, [(archiveFileName cfg.compress (hashpath path) 1, [])], [], []⟩
    rw [hg]
    have hmask : pyCompress (filesOf entries)
        (List.replicate (filesOf entries).length false) = [] := by
      generalize filesOf entries = fs
      induction fs with
      | nil => rfl
      | cons f t ih => simpa [pyCompress, List.replicate] using ih
    have hlen : ¬(filesOf entries).length = 0 := by
      simpa [List.length_eq_zero] using hne
    simp [allCalls, runTar, tarOp, hlen, buildMembers, hmask, tarFinally, verify,
      initAcc]
  · intro he
    show runTar cfg.compress (hashpath path) false initAcc
      (allCalls (gatherfiles cfg entries)) = .ok initAcc
    rw [hg, he]
    simp [allCalls, runTar, tarOp]

/-- Closed instance of `empty_storemask_archive`: one undersized-free
directory (threshold 0, so its single file is left alone) still yields
exactly one member-less archive on a real run. -/
theorem empty_storemask_archive_witness :
    (archiveLevel ⟨none, 0, 10, [], []⟩ "p" [.file ⟨"a", [0]⟩] false).2 =
      .ok ⟨1, [(archiveFileName (⟨none, 0, 10, [], []⟩ : DirConfig).compress
                 (hashpath "p") 1, [])], [], []⟩ :=
  (empty_storemask_archive ⟨none, 0, 10, [], []⟩ "p" [.file ⟨"a", [0]⟩]
    (by
      intro f hf
      simp only [List.mem_singleton, Entry.file.injEq] at hf
      subst hf
      decide)).1 (by decide)
